import Mathlib

/-!
# Verification of the terminal-ag daemon core

A shallow embedding of the core of the repository (a local LLM daemon):

* `llm_client.py` — the upstream gateway (`QwenLLMClient`): cache-key
  fingerprinting (`_get_cache_key`), the response cache used inside
  `chat_completion`, the direct remote request (`_direct_request`) and the
  streaming generator (`_stream_response`);
* `server.py` — the dispatcher (`QwenServer.process_request`,
  `QwenServer.process_chat`) and the sentinel-framed wire codec used by
  `handle_client` / the client's `send_request`.

External collaborators (the OpenAI SDK remote endpoint, `time.time()`,
`hashlib.md5`, `json.dumps`) are modelled at their boundary: the remote
endpoint and the clock are oracle parameters, the digest is an explicit
deterministic stand-in, and `json.dumps` is reproduced at the level of
detail the verified properties depend on.
-/

/-- A chat message, `{"role": ..., "content": ...}` as used throughout
`llm_client.py` and `server.py`. -/
structure Msg where
  role : String
  content : String
deriving DecidableEq, Repr

/-- A JSON value as manipulated by the Python code (`json.dumps` inputs).
Numbers are carried as their numeric literal text (`jnum`), matching the
fact that the code never computes with them, only serializes them. -/
inductive JVal where
  | jnull
  | jbool (b : Bool)
  | jnum (lit : String)
  | jstr (s : String)
  | jarr (elems : List JVal)
  | jobj (fields : List (String × JVal))

/-- JSON string escaping of one character, as performed by `json.dumps`
with `ensure_ascii=False`: quote, backslash and control characters are
escaped, everything else passes through. -/
def escC (c : Char) : List Char :=
  if c = '"' then ['\\', '"']
  else if c = '\\' then ['\\', '\\']
  else if c = '\n' then ['\\', 'n']
  else if c = '\r' then ['\\', 'r']
  else if c = '\t' then ['\\', 't']
  else if c.toNat < 32 then
    ['\\', 'u', '0', '0', Nat.digitChar (c.toNat / 16), Nat.digitChar (c.toNat % 16)]
  else [c]

/-- Escape a whole string body (`json.dumps` string contents). -/
def escJ : List Char → List Char
  | [] => []
  | c :: cs => escC c ++ escJ cs

/-- Join serialized items with the `", "` separator `json.dumps` uses. -/
def joinChunks : List (List Char) → List Char
  | [] => []
  | [x] => x
  | x :: y :: rest => x ++ [',', ' '] ++ joinChunks (y :: rest)

/-- Render an object key followed by the `": "` separator of `json.dumps`. -/
def keyChunk (k : String) : List Char :=
  '"' :: escJ k.data ++ ['"', ':', ' ']

mutual
/-- `json.dumps(value, ensure_ascii=False)` as called in
`QwenServer.handle_client` (insertion order preserved, no key sorting).
`dumpsWList` and `dumpsWObj` render comma-separated array elements and
object entries. -/
def dumpsW : JVal → List Char
  | .jnull => 'n' :: ['u', 'l', 'l']
  | .jbool true => 't' :: ['r', 'u', 'e']
  | .jbool false => 'f' :: ['a', 'l', 's', 'e']
  | .jnum lit => lit.data
  | .jstr s => '"' :: (escJ s.data ++ ['"'])
  | .jarr es => '[' :: (dumpsWList es ++ [']'])
  | .jobj fs => '{' :: (dumpsWObj fs ++ ['}'])

def dumpsWList : List JVal → List Char
  | [] => []
  | [e] => dumpsW e
  | e :: rest => dumpsW e ++ [',', ' '] ++ dumpsWList rest

def dumpsWObj : List (String × JVal) → List Char
  | [] => []
  | [(k, v)] => keyChunk k ++ dumpsW v
  | (k, v) :: rest => keyChunk k ++ dumpsW v ++ [',', ' '] ++ dumpsWObj rest
end

/-- Boolean string order used when sorting object keys. -/
def strLe (a b : String) : Bool := a ≤ b

mutual
/-- `json.dumps(value, sort_keys=True)` as called in
`QwenLLMClient._get_cache_key`: like `dumpsW` but every object's entries
are emitted in sorted key order (a Python dict holds one value per key,
so the entry for a key is recovered by lookup among the rendered
pairs). -/
def dumpsS : JVal → List Char
  | .jnull => 'n' :: ['u', 'l', 'l']
  | .jbool true => 't' :: ['r', 'u', 'e']
  | .jbool false => 'f' :: ['a', 'l', 's', 'e']
  | .jnum lit => lit.data
  | .jstr s => '"' :: (escJ s.data ++ ['"'])
  | .jarr es => '[' :: (dumpsSList es ++ [']'])
  | .jobj fs =>
      let pairs := dumpsSPairs fs
      '{' :: (joinChunks (((pairs.map Prod.fst).mergeSort strLe).map
        fun k => keyChunk k ++ ((pairs.lookup k).getD [])) ++ ['}'])

def dumpsSList : List JVal → List Char
  | [] => []
  | [e] => dumpsS e
  | e :: rest => dumpsS e ++ [',', ' '] ++ dumpsSList rest

def dumpsSPairs : List (String × JVal) → List (String × List Char)
  | [] => []
  | (k, v) :: rest => (k, dumpsS v) :: dumpsSPairs rest
end

/-- Validity of a JSON numeric literal: nonempty, drawn from the numeral
alphabet, ending in a digit (every number `json.dumps` emits has this
shape). -/
def numOk (lit : String) : Bool :=
  (match lit.data.getLast? with
   | some c => c.isDigit
   | none => false) &&
  lit.data.all fun c => c.isDigit || c == '-' || c == '+' || c == '.' || c == 'e' || c == 'E'

mutual
/-- A well-formed JSON value: every numeric literal in it is valid. -/
def jwf : JVal → Bool
  | .jnull => true
  | .jbool _ => true
  | .jnum lit => numOk lit
  | .jstr _ => true
  | .jarr es => jwfList es
  | .jobj fs => jwfObj fs

def jwfList : List JVal → Bool
  | [] => true
  | e :: rest => jwf e && jwfList rest

def jwfObj : List (String × JVal) → Bool
  | [] => true
  | (_, v) :: rest => jwf v && jwfObj rest
end

/-- Model of the external `hashlib.md5(...).hexdigest()` call in
`QwenLLMClient._get_cache_key`: an explicit deterministic digest of the
serialized text.  The verified claims depend only on the digest being a
function of the serialized text (equal texts give equal digests). -/
def md5hex (l : List Char) : String :=
  String.mk (Nat.toDigits 16 (l.foldl (fun h c => (h * 131 + c.toNat) % (2 ^ 128)) 0))

/-- A message as the JSON object `{"role": r, "content": c}`. -/
def msgJVal (m : Msg) : JVal :=
  .jobj [("role", .jstr m.role), ("content", .jstr m.content)]

/-- `QwenLLMClient._get_cache_key`:
`md5(json.dumps({"messages": messages, **kwargs}, sort_keys=True))`. -/
def getCacheKey (messages : List Msg) (kwargs : List (String × JVal)) : String :=
  md5hex (dumpsS (.jobj (("messages", .jarr (messages.map msgJVal)) :: kwargs)))

/-- Decimal digit accumulation, structurally recursive on fuel (the fuel
`n+1` always suffices since `n / 10` shrinks strictly). -/
def natDigitsAux : Nat → Nat → List Char → List Char
  | 0, _, acc => acc
  | fuel + 1, n, acc =>
      if n < 10 then Nat.digitChar n :: acc
      else natDigitsAux fuel (n / 10) (Nat.digitChar (n % 10) :: acc)

/-- Decimal rendering of a natural number, as Python formats ints. -/
def natDigits (n : Nat) : List Char := natDigitsAux (n + 1) n []

/-- The decimal literal of an integer, matching Python's `repr` of an
`int` as embedded in `json.dumps` output. -/
def intLit (i : Int) : String :=
  if i < 0 then "-" ++ String.mk (natDigits i.natAbs) else String.mk (natDigits i.natAbs)

/-! ## Response cache (`QwenLLMClient.cache`, inline in `chat_completion`) -/

/-- `self.cache`: a dict from cache key to
`{"response": ..., "timestamp": ...}`, modelled as an association list
with at most one entry per key. -/
abbrev Cache := List (String × String × Nat)

/-- `self.cache_ttl = 300` (seconds). -/
def cacheTtl : Nat := 300

/-- The lookup step of `chat_completion` (lines 48–52 of
`llm_client.py`): the cached response is returned only when an entry
exists and `now - timestamp < cache_ttl`; an expired entry is left in
place and treated as a miss. -/
def cacheLookup (cache : Cache) (now : Nat) (key : String) : Option String :=
  match cache.lookup key with
  | some (v, ts) => if now - ts < cacheTtl then some v else none
  | none => none

/-- The store step of `chat_completion` (lines 59–62):
`self.cache[cache_key] = {"response": response, "timestamp": time.time()}`,
a dict overwrite. -/
def cacheStore (cache : Cache) (now : Nat) (key : String) (v : String) : Cache :=
  (key, v, now) :: cache.filter (fun e => e.1 ≠ key)

/-! ## Upstream gateway (`QwenLLMClient`) -/

/-- The outcome of the remote
`self.client.chat.completions.create(**params)` call, an oracle at the
external boundary: either an exception with its message, or a response
whose `choices[i].message.content` fields are listed (a content may be
absent/None). -/
inductive RemoteOutcome where
  | exn (msg : String)
  | ok (choices : List (Option String))

/-- The `params` dict assembled in `QwenLLMClient._direct_request`. -/
structure GwParams where
  model : String
  messages : List Msg
  stream : Bool
  temperature : JVal
  max_tokens : JVal

/-- `kwargs.get(k)` on the keyword-argument dict. -/
def kwGet (kwargs : List (String × JVal)) (k : String) : Option JVal :=
  kwargs.lookup k

/-- Lines 69–75 of `llm_client.py`: the params dict, with
`kwargs.get("temperature", 0.9)` and `kwargs.get("max_tokens", 1500)`. -/
def mkGwParams (messages : List Msg) (streamFlag : Bool)
    (kwargs : List (String × JVal)) : GwParams :=
  { model := "qwen-turbo"
    messages := messages
    stream := streamFlag
    temperature := (kwGet kwargs "temperature").getD (.jnum "0.9")
    max_tokens := (kwGet kwargs "max_tokens").getD (.jnum "1500") }

/-- The non-streaming branch of `QwenLLMClient._direct_request`
(lines 79–87): return `choices[0].message.content` when choices exist and
the content is truthy, else `""`; on any exception log and return `None`
(modelled as `none` — note the exception text reaches only the log). -/
def directRequestText : RemoteOutcome → Option String
  | .exn _ => none
  | .ok [] => some ""
  | .ok (none :: _) => some ""
  | .ok (some s :: _) => if s = "" then some "" else some s

/-- Result of one `chat_completion` call: the returned value (Python
`None` as `none`), the cache afterwards, and the list of `params` of the
`_direct_request` calls that were made. -/
structure CCOut where
  response : Option String
  cache : Cache
  calls : List GwParams

/-- `QwenLLMClient.chat_completion` on the `stream=False` path
(lines 46–64): check the cache, on miss issue `_direct_request` with
`stream=False`, and cache the response only when it is truthy
(`if response:` — skipping both `None` and `""`). -/
def chatCompletion (remote : GwParams → RemoteOutcome) (cache : Cache) (now : Nat)
    (messages : List Msg) (kwargs : List (String × JVal)) : CCOut :=
  let key := getCacheKey messages kwargs
  match cacheLookup cache now key with
  | some v => ⟨some v, cache, []⟩
  | none =>
      let p := mkGwParams messages false kwargs
      match directRequestText (remote p) with
      | some r => ⟨some r, if r = "" then cache else cacheStore cache now key r, [p]⟩
      | none => ⟨none, cache, [p]⟩

/-- One chunk of the remote streaming response: either
`chunk.choices[0].delta` raises (no choices — skipped by the inner
`try`/`continue`), or a delta whose `content` attribute is `None` or a
string. -/
inductive StreamChunk where
  | broken
  | delta (content : Option String)

/-- Outcome of the remote `create` call that opens a stream. -/
inductive StreamOutcome where
  | exn (msg : String)
  | chunks (cs : List StreamChunk)

/-- `QwenLLMClient._stream_response` (lines 89–104): iterate the chunks,
skip those without an extractable delta, yield `delta.content` only when
it is truthy; on an exception from `create` the generator ends, having
yielded nothing. -/
def streamFragments : StreamOutcome → List String
  | .exn _ => []
  | .chunks cs =>
      cs.filterMap fun c =>
        match c with
        | .broken => none
        | .delta none => none
        | .delta (some s) => if s = "" then none else some s

/-- A run of the streaming path of `_direct_request`: the number of
remote `create` calls performed to open the stream, and the fragments the
generator yields when fully consumed. -/
structure StreamRun where
  createCalls : Nat
  fragments : List String

/-- The `stream=True` branch of `_direct_request` returning
`self._stream_response(params)`: exactly one `create` call opens the
stream; consuming the generator yields the filtered fragments. -/
def streamResponse (remote : GwParams → StreamOutcome) (p : GwParams) : StreamRun :=
  ⟨1, streamFragments (remote p)⟩

/-! ## Dispatcher (`QwenServer`) -/

/-- A decoded request dict, each field present or absent
(`request.get(..., default)` semantics). -/
structure Req where
  action : Option String
  messages : Option (List Msg)
  stream : Option Bool
  temperature : Option JVal
  max_tokens : Option Int

/-- The response dicts `QwenServer.process_request` can produce.
`statusReport` abstracts `get_status` (its fields — thread count, memory
usage — are host-environment readings with no algorithmic content). -/
inductive SResp where
  | errorR (msg : String)
  | warningR (msg : String)
  | chatOk (response : String) (tokens : Nat)
  | pong
  | statusReport
deriving DecidableEq, Repr

/-- Result of dispatching one request: the response, the cache
afterwards, and the `params` of every gateway `_direct_request` call. -/
structure DispatchOut where
  resp : SResp
  cache : Cache
  calls : List GwParams

/-- The keyword arguments `process_chat` passes to `chat_completion`:
`temperature=request.get("temperature", 0.9)` and
`max_tokens=request.get("max_tokens", 2000)`. -/
def chatKwargs (req : Req) : List (String × JVal) :=
  [("temperature", req.temperature.getD (.jnum "0.9")),
   ("max_tokens", .jnum (intLit (req.max_tokens.getD 2000)))]

/-- `QwenServer.process_chat` (lines 233–259 of `server.py`): reject an
empty message list, then reject streaming with a warning, otherwise call
`chat_completion(messages, stream=False, temperature=request.get("temperature", 0.9),
max_tokens=request.get("max_tokens", 2000))` and build
`{"response": response, "tokens": len(response) // 4}`.  When
`chat_completion` returns `None`, `len(None)` raises `TypeError`, caught
by the surrounding `except Exception` — so the caller sees
`{"error": "模型请求失败: object of type 'NoneType' has no len()"}`. -/
def processChat (remote : GwParams → RemoteOutcome) (cache : Cache) (now : Nat)
    (req : Req) : DispatchOut :=
  let messages := req.messages.getD []
  if messages.isEmpty then ⟨.errorR "消息不能为空", cache, []⟩
  else if req.stream.getD false then ⟨.warningR "流式响应需要WebSocket，使用非流式", cache, []⟩
  else
    let out := chatCompletion remote cache now messages (chatKwargs req)
    match out.response with
    | some text => ⟨.chatOk text (text.length / 4), out.cache, out.calls⟩
    | none =>
        ⟨.errorR "模型请求失败: object of type 'NoneType' has no len()", out.cache, out.calls⟩

/-- `QwenServer.process_request` (lines 220–231):
`action = request.get("action", "chat")`, then dispatch. -/
def processRequest (remote : GwParams → RemoteOutcome) (cache : Cache) (now : Nat)
    (req : Req) : DispatchOut :=
  match req.action.getD "chat" with
  | "chat" => processChat remote cache now req
  | "ping" => ⟨.pong, cache, []⟩
  | "status" => ⟨.statusReport, cache, []⟩
  | a => ⟨.errorR ("未知操作: " ++ a), cache, []⟩

/-! ## Wire codec (sentinel framing) -/

/-- The frame terminator `b"__END__"`. -/
def sentChars : List Char := ['_', '_', 'E', 'N', 'D', '_', '_']

/-- Encoding in `handle_client` / `send_request`: the serialized document
followed by the sentinel. -/
def frame (doc : List Char) : List Char := doc ++ sentChars

/-- Boolean "starts with" test. -/
def isPre : List Char → List Char → Bool
  | [], _ => true
  | _ :: _, [] => false
  | a :: as, b :: bs => a == b && isPre as bs

/-- Whether `pat` occurs as a contiguous substring. -/
def hasOccur (pat : List Char) : List Char → Bool
  | [] => isPre pat []
  | c :: cs => isPre pat (c :: cs) || hasOccur pat cs

/-- Left-to-right, non-overlapping deletion of every occurrence of the
sentinel, exactly Python's `str.replace("__END__", "")` in
`handle_client` (line 198) and `send_request` (line 440).  The counter
carries the remaining characters of an occurrence being skipped. -/
def stripAux : Nat → List Char → List Char
  | _, [] => []
  | 0, c :: cs => if isPre sentChars (c :: cs) then stripAux 6 cs else c :: stripAux 0 cs
  | k + 1, _ :: cs => stripAux k cs

/-- Decoding side of the wire codec: strip every sentinel occurrence from
the accumulated buffer. -/
def stripSent (buf : List Char) : List Char := stripAux 0 buf

/-! ## Helper lemmas -/

/-- Two strings differ when their first characters differ, even after
appending to the second. -/
lemma ne_append_left_of_head {s t : String} {c d : Char}
    (hs : s.data.head? = some c) (ht : t.data.head? = some d) (hcd : c ≠ d)
    (a : String) : s ≠ t ++ a := by
  intro h
  have hd := congrArg String.data h
  rw [String.data_append] at hd
  rw [hd, List.head?_append, ht] at hs
  simp only [Option.or] at hs
  exact hcd (Option.some.inj hs).symm

/-- The `process_chat` handler only ever produces one of its four
response shapes. -/
lemma processChat_resp_shapes (remote : GwParams → RemoteOutcome) (cache : Cache)
    (now : Nat) (req : Req) :
    (processChat remote cache now req).resp = .errorR "消息不能为空" ∨
    (processChat remote cache now req).resp = .warningR "流式响应需要WebSocket，使用非流式" ∨
    (∃ r n, (processChat remote cache now req).resp = .chatOk r n) ∨
    (processChat remote cache now req).resp
      = .errorR "模型请求失败: object of type 'NoneType' has no len()" := by
  simp only [processChat]
  split
  · left; rfl
  · split
    · right; left; rfl
    · split
      · right; right; left; exact ⟨_, _, rfl⟩
      · right; right; right; rfl

/-- No response `process_chat` produces is the unknown-action error. -/
lemma processChat_resp_ne_unknown (remote : GwParams → RemoteOutcome) (cache : Cache)
    (now : Nat) (req : Req) (a : String) :
    (processChat remote cache now req).resp ≠ .errorR ("未知操作: " ++ a) := by
  intro h
  rcases processChat_resp_shapes remote cache now req with h1 | h1 | ⟨r, n, h1⟩ | h1 <;>
    rw [h1] at h
  · injection h with h'
    exact ne_append_left_of_head (s := "消息不能为空") (t := "未知操作: ")
      (c := '消') (d := '未') rfl rfl (by decide) a h'
  · exact SResp.noConfusion h
  · exact SResp.noConfusion h
  · injection h with h'
    exact ne_append_left_of_head
      (s := "模型请求失败: object of type 'NoneType' has no len()") (t := "未知操作: ")
      (c := '模') (d := '未') rfl rfl (by decide) a h'

/-! ## C4 — cache round-trip and passive expiry -/

/-- C4: `store(k, v)` followed by `lookup(k)` before the ttl (300) has
elapsed returns `v`; once `now - created_at >= ttl` the lookup behaves as
a miss although the entry is still physically present in the map. -/
theorem cache_roundtrip_expiry (c : Cache) (now later : Nat) (k v : String) :
    (later - now < cacheTtl →
      cacheLookup (cacheStore c now k v) later k = some v) ∧
    (cacheTtl ≤ later - now →
      cacheLookup (cacheStore c now k v) later k = none ∧
      (cacheStore c now k v).lookup k = some (v, now)) := by
  have hl : (cacheStore c now k v).lookup k = some (v, now) := by
    simp [cacheStore, List.lookup]
  refine ⟨fun h => ?_, fun h => ⟨?_, hl⟩⟩
  · simp [cacheLookup, hl, h]
  · simp only [cacheLookup, hl]
    rw [if_neg (by omega)]

/-- Witness for `cache_roundtrip_expiry` at a concrete store. -/
theorem cache_roundtrip_expiry_witness :
    (0 - 0 < cacheTtl ∧ cacheLookup (cacheStore [] 0 "k" "v") 0 "k" = some "v") ∧
    (cacheTtl ≤ 300 - 0 ∧ cacheLookup (cacheStore [] 0 "k" "v") 300 "k" = none ∧
      (cacheStore [] 0 "k" "v").lookup "k" = some ("v", 0)) :=
  ⟨⟨by decide, (cache_roundtrip_expiry [] 0 0 "k" "v").1 (by decide)⟩,
   ⟨by decide, (cache_roundtrip_expiry [] 0 300 "k" "v").2 (by decide)⟩⟩

/-! ## C7 — empty conversation is rejected before the gateway -/

/-- C7: a chat request whose message list is empty is answered with the
empty-conversation error; the cache is untouched and the gateway is never
called. -/
theorem empty_conversation_rejected (remote : GwParams → RemoteOutcome) (cache : Cache)
    (now : Nat) (req : Req) (h : req.messages.getD [] = []) :
    processChat remote cache now req = ⟨.errorR "消息不能为空", cache, []⟩ := by
  simp [processChat, h]

/-- Witness for `empty_conversation_rejected` on a request without a
`messages` field. -/
theorem empty_conversation_rejected_witness :
    ((⟨some "chat", none, none, none, none⟩ : Req).messages.getD [] = []) ∧
    processChat (fun _ => .exn "down") [] 0 ⟨some "chat", none, none, none, none⟩
      = ⟨.errorR "消息不能为空", [], []⟩ :=
  ⟨rfl, empty_conversation_rejected _ _ _ _ rfl⟩

/-! ## C2 — stream=true (corrected) -/

/-- C2 counterexample: a chat request with `stream = true` but an empty
message list fails with the empty-conversation error, not the
streaming-unsupported response — the emptiness check runs first. -/
theorem stream_true_empty_conversation_cx :
    (processChat (fun _ => .exn "down") [] 0
        ⟨some "chat", some [], some true, none, none⟩).resp = .errorR "消息不能为空" ∧
    (processChat (fun _ => .exn "down") [] 0
        ⟨some "chat", some [], some true, none, none⟩).resp
      ≠ .warningR "流式响应需要WebSocket，使用非流式" := by
  exact ⟨by decide, by decide⟩

/-- C2 (amended): a chat request with `stream = true` and a non-empty
message list is answered with the streaming-unsupported response
(`{"warning": ...}`), the cache is left untouched and the gateway is
never called. -/
theorem stream_true_unsupported (remote : GwParams → RemoteOutcome) (cache : Cache)
    (now : Nat) (req : Req) (hm : req.messages.getD [] ≠ [])
    (hs : req.stream.getD false = true) :
    processChat remote cache now req
      = ⟨.warningR "流式响应需要WebSocket，使用非流式", cache, []⟩ := by
  have hm' : (req.messages.getD []).isEmpty = false := by
    simp [List.isEmpty_iff, hm]
  simp [processChat, hm', hs]

/-- Witness for `stream_true_unsupported`. -/
theorem stream_true_unsupported_witness :
    ((⟨some "chat", some [⟨"user", "hi"⟩], some true, none, none⟩ : Req).messages.getD [] ≠ []) ∧
    processChat (fun _ => .exn "down") [] 0
        ⟨some "chat", some [⟨"user", "hi"⟩], some true, none, none⟩
      = ⟨.warningR "流式响应需要WebSocket，使用非流式", [], []⟩ :=
  ⟨by decide, stream_true_unsupported _ _ _ _ (by decide) rfl⟩

/-! ## C10 — missing action defaults to chat -/

/-- C10: a request without an `"action"` field is dispatched as a chat
request; the unknown-action error arises exactly for a present action
other than `"chat"`, `"ping"`, `"status"`. -/
theorem action_defaults_to_chat (remote : GwParams → RemoteOutcome) (cache : Cache)
    (now : Nat) (req : Req) :
    (req.action = none →
      processRequest remote cache now req = processChat remote cache now req) ∧
    (∀ a, req.action = some a → a ≠ "chat" → a ≠ "ping" → a ≠ "status" →
      processRequest remote cache now req = ⟨.errorR ("未知操作: " ++ a), cache, []⟩) ∧
    (∀ a, (processRequest remote cache now req).resp = .errorR ("未知操作: " ++ a) →
      ∃ b, req.action = some b ∧ b ≠ "chat" ∧ b ≠ "ping" ∧ b ≠ "status") := by
  obtain ⟨act, msgs, st, tp, mt⟩ := req
  refine ⟨fun h => ?_, fun a ha h1 h2 h3 => ?_, fun a h => ?_⟩
  · cases h
    rfl
  · cases ha
    simp only [processRequest, Option.getD_some]
  · cases act with
    | none =>
        exact absurd h (processChat_resp_ne_unknown remote cache now _ a)
    | some b =>
        by_cases hb1 : b = "chat"
        · subst hb1
          exact absurd h (processChat_resp_ne_unknown remote cache now _ a)
        · by_cases hb2 : b = "ping"
          · subst hb2
            exact SResp.noConfusion h
          · by_cases hb3 : b = "status"
            · subst hb3
              exact SResp.noConfusion h
            · exact ⟨b, rfl, hb1, hb2, hb3⟩

/-! ## C9 — streaming yields only textual fragments -/

/-- The textual content a stream chunk carries, if any. -/
def chunkContent : StreamChunk → Option String
  | .broken => none
  | .delta c => c

/-- The generator keeps exactly the truthy contents of the chunks. -/
lemma streamFragments_chunks (cs : List StreamChunk) :
    streamFragments (.chunks cs) = (cs.filterMap chunkContent).filter (fun s => s != "") := by
  induction cs with
  | nil => rfl
  | cons c rest ih =>
      simp only [streamFragments] at ih
      cases c with
      | broken => simpa [streamFragments, chunkContent, List.filterMap_cons] using ih
      | delta oc =>
          cases oc with
          | none => simpa [streamFragments, chunkContent, List.filterMap_cons] using ih
          | some s =>
              by_cases hs : s = "" <;>
                simp [streamFragments, chunkContent, List.filterMap_cons, hs, List.filter_cons, ih]

/-- C9: the streaming path opens the remote stream with exactly one
`create` call, and the fragment sequence it yields consists precisely of
the chunks' textual contents with empty/absent contents skipped — in
particular the empty string is never yielded. -/
theorem stream_only_text_fragments (remote : GwParams → StreamOutcome) (p : GwParams) :
    (streamResponse remote p).createCalls = 1 ∧
    (∀ s ∈ (streamResponse remote p).fragments, s ≠ "") ∧
    (∀ cs, remote p = .chunks cs →
      (streamResponse remote p).fragments
        = (cs.filterMap chunkContent).filter (fun s => s != "")) := by
  refine ⟨rfl, fun s hs => ?_, fun cs hcs => ?_⟩
  · rcases ho : remote p with emsg | cs
    · rw [streamResponse, ho] at hs
      exact absurd hs (List.not_mem_nil s)
    · rw [streamResponse, ho] at hs
      dsimp only at hs
      rw [streamFragments_chunks] at hs
      simpa using (List.mem_filter.mp hs).2
  · rw [streamResponse, hcs]
    exact streamFragments_chunks cs

/-- Witness for `stream_only_text_fragments` on a concrete chunk list
with a metadata chunk, a contentless delta and an empty-string delta. -/
theorem stream_only_text_fragments_witness :
    (streamResponse
        (fun _ => .chunks [.broken, .delta none, .delta (some ""),
                           .delta (some "Hel"), .delta (some "lo")])
        (mkGwParams [] true [])).fragments
      = ([StreamChunk.broken, .delta none, .delta (some ""),
          .delta (some "Hel"), .delta (some "lo")].filterMap chunkContent).filter
          (fun s => s != "") ∧
    (streamResponse
        (fun _ => .chunks [.broken, .delta none, .delta (some ""),
                           .delta (some "Hel"), .delta (some "lo")])
        (mkGwParams [] true [])).fragments = ["Hel", "lo"] :=
  ⟨(stream_only_text_fragments _ _).2.2 _ rfl, by decide⟩

/-! ## Cache-miss path of `process_chat` -/

/-- On a cache miss with a truthy-or-empty gateway result, `process_chat`
returns the annotated text and stores it only when non-empty. -/
lemma processChat_miss_some (remote : GwParams → RemoteOutcome) (cache : Cache)
    (now : Nat) (req : Req) (r : String) (hm : req.messages.getD [] ≠ [])
    (hs : req.stream.getD false = false)
    (hmiss : cacheLookup cache now
      (getCacheKey (req.messages.getD []) (chatKwargs req)) = none)
    (hr : directRequestText
      (remote (mkGwParams (req.messages.getD []) false (chatKwargs req))) = some r) :
    processChat remote cache now req
      = ⟨.chatOk r (r.length / 4),
         if r = "" then cache
         else cacheStore cache now (getCacheKey (req.messages.getD []) (chatKwargs req)) r,
         [mkGwParams (req.messages.getD []) false (chatKwargs req)]⟩ := by
  have hm' : (req.messages.getD []).isEmpty = false := by
    simp [List.isEmpty_iff, hm]
  simp [processChat, hm', hs, chatCompletion, hmiss, hr]

/-- On a cache miss with a failed gateway call (`None` result), the
caller sees the generic `TypeError` message and nothing is stored. -/
lemma processChat_miss_none (remote : GwParams → RemoteOutcome) (cache : Cache)
    (now : Nat) (req : Req) (hm : req.messages.getD [] ≠ [])
    (hs : req.stream.getD false = false)
    (hmiss : cacheLookup cache now
      (getCacheKey (req.messages.getD []) (chatKwargs req)) = none)
    (hr : directRequestText
      (remote (mkGwParams (req.messages.getD []) false (chatKwargs req))) = none) :
    processChat remote cache now req
      = ⟨.errorR "模型请求失败: object of type 'NoneType' has no len()", cache,
         [mkGwParams (req.messages.getD []) false (chatKwargs req)]⟩ := by
  have hm' : (req.messages.getD []).isEmpty = false := by
    simp [List.isEmpty_iff, hm]
  simp [processChat, hm', hs, chatCompletion, hmiss, hr]

/-- The non-streaming direct request always produces a string (possibly
empty) when the remote call itself does not raise. -/
lemma directRequestText_ok (choices : List (Option String)) :
    ∃ r, directRequestText (.ok choices) = some r := by
  cases choices with
  | nil => exact ⟨"", rfl⟩
  | cons c rest =>
      cases c with
      | none => exact ⟨"", rfl⟩
      | some s =>
          by_cases hs : s = ""
          · exact ⟨"", by simp [directRequestText, hs]⟩
          · exact ⟨s, by simp [directRequestText, hs]⟩

/-! ## C3 — cache-miss chat behaviour (corrected) -/

/-- C3 counterexample: a gateway result that is non-null but empty
(`""`) is returned to the caller yet **not** stored in the cache —
`if response:` skips every falsy value, not just `None`. -/
theorem empty_result_not_cached_cx :
    (processChat (fun _ => .ok [some ""]) [] 0
        ⟨some "chat", some [⟨"user", "hello"⟩], some false, none, none⟩).resp
      = .chatOk "" 0 ∧
    (processChat (fun _ => .ok [some ""]) [] 0
        ⟨some "chat", some [⟨"user", "hello"⟩], some false, none, none⟩).cache = [] :=
  ⟨by decide, by decide⟩

/-- C3 (amended): on a cache miss `process_chat` calls the gateway once
with `stream=False`, stores the result only when it is non-null **and
non-empty**, and returns it annotated with `len(text) // 4` tokens. -/
theorem chat_miss_calls_gateway (remote : GwParams → RemoteOutcome) (cache : Cache)
    (now : Nat) (req : Req) (hm : req.messages.getD [] ≠ [])
    (hs : req.stream.getD false = false)
    (hmiss : cacheLookup cache now
      (getCacheKey (req.messages.getD []) (chatKwargs req)) = none) :
    (processChat remote cache now req).calls
        = [mkGwParams (req.messages.getD []) false (chatKwargs req)] ∧
    (mkGwParams (req.messages.getD []) false (chatKwargs req)).stream = false ∧
    (∀ r, directRequestText
        (remote (mkGwParams (req.messages.getD []) false (chatKwargs req))) = some r →
      (processChat remote cache now req).resp = .chatOk r (r.length / 4) ∧
      (processChat remote cache now req).cache
        = if r = "" then cache
          else cacheStore cache now
            (getCacheKey (req.messages.getD []) (chatKwargs req)) r) := by
  refine ⟨?_, rfl, fun r hr => ?_⟩
  · rcases hdr : directRequestText
        (remote (mkGwParams (req.messages.getD []) false (chatKwargs req))) with _ | r
    · rw [processChat_miss_none remote cache now req hm hs hmiss hdr]
    · rw [processChat_miss_some remote cache now req r hm hs hmiss hdr]
  · rw [processChat_miss_some remote cache now req r hm hs hmiss hr]
    exact ⟨rfl, rfl⟩

/-- Witness for `chat_miss_calls_gateway`: the spec's Scenario B — a
gateway stubbed to return `"hi there"` yields
`{"response": "hi there", "tokens": 2}`. -/
theorem chat_miss_calls_gateway_witness :
    cacheLookup [] 0
      (getCacheKey ((⟨some "chat", some [⟨"user", "hello"⟩], some false, none, none⟩ :
        Req).messages.getD [])
        (chatKwargs ⟨some "chat", some [⟨"user", "hello"⟩], some false, none, none⟩)) = none ∧
    (processChat (fun _ => .ok [some "hi there"]) [] 0
        ⟨some "chat", some [⟨"user", "hello"⟩], some false, none, none⟩).resp
      = .chatOk "hi there" 2 :=
  ⟨rfl,
   (((chat_miss_calls_gateway (fun _ => .ok [some "hi there"]) [] 0
      ⟨some "chat", some [⟨"user", "hello"⟩], some false, none, none⟩
      (by decide) rfl rfl).2.2) "hi there" rfl).1⟩

/-! ## C1 — gateway failure reporting (corrected) -/

/-- C1 counterexample: when the remote call raises with message
`"boom"`, the caller-visible error is the fixed `TypeError` text — the
remote error text is not attached (it goes only to the log). -/
theorem gateway_error_text_swallowed_cx :
    (processChat (fun _ => .exn "boom") [] 0
        ⟨some "chat", some [⟨"user", "hello"⟩], some false, none, none⟩).resp
      = .errorR "模型请求失败: object of type 'NoneType' has no len()" ∧
    hasOccur "boom".data
      "模型请求失败: object of type 'NoneType' has no len()".data = false :=
  ⟨by decide, by decide⟩

/-- C1 (amended): a failed remote call (exception / retry exhaustion /
timeout surfaced by the SDK) makes `_direct_request` return `None` with
the remote error text only logged; the chat entry point still reports
the failure to the caller — as the generic `TypeError` message, not the
remote text — and nothing is cached, while a successful call with no
content yields an ok response with empty text, so "call failed" and "no
content produced" remain distinguishable. -/
theorem gateway_failure_reported_generic (remote : GwParams → RemoteOutcome)
    (cache : Cache) (now : Nat) (req : Req) (hm : req.messages.getD [] ≠ [])
    (hs : req.stream.getD false = false)
    (hmiss : cacheLookup cache now
      (getCacheKey (req.messages.getD []) (chatKwargs req)) = none) :
    (∀ emsg, remote (mkGwParams (req.messages.getD []) false (chatKwargs req)) = .exn emsg →
      (processChat remote cache now req).resp
        = .errorR "模型请求失败: object of type 'NoneType' has no len()" ∧
      (processChat remote cache now req).cache = cache) ∧
    (∀ choices,
      remote (mkGwParams (req.messages.getD []) false (chatKwargs req)) = .ok choices →
      ∃ r, (processChat remote cache now req).resp = .chatOk r (r.length / 4)) := by
  refine ⟨fun emsg he => ?_, fun choices hc => ?_⟩
  · have hr : directRequestText
        (remote (mkGwParams (req.messages.getD []) false (chatKwargs req))) = none := by
      rw [he]
      rfl
    rw [processChat_miss_none remote cache now req hm hs hmiss hr]
    exact ⟨rfl, rfl⟩
  · obtain ⟨r, hr⟩ := directRequestText_ok choices
    refine ⟨r, ?_⟩
    rw [processChat_miss_some remote cache now req r hm hs hmiss (by rw [hc, hr])]

/-- Witness for `gateway_failure_reported_generic` with a remote raising
`"oops"`. -/
theorem gateway_failure_reported_generic_witness :
    ((⟨some "chat", some [⟨"user", "hello"⟩], some false, none, none⟩ :
        Req).messages.getD [] ≠ []) ∧
    (processChat (fun _ => .exn "oops") [] 0
        ⟨some "chat", some [⟨"user", "hello"⟩], some false, none, none⟩).resp
      = .errorR "模型请求失败: object of type 'NoneType' has no len()" ∧
    (processChat (fun _ => .exn "oops") [] 0
        ⟨some "chat", some [⟨"user", "hello"⟩], some false, none, none⟩).cache = [] :=
  ⟨by decide,
   ((gateway_failure_reported_generic (fun _ => .exn "oops") [] 0
      ⟨some "chat", some [⟨"user", "hello"⟩], some false, none, none⟩
      (by decide) rfl rfl).1 "oops" rfl).1,
   ((gateway_failure_reported_generic (fun _ => .exn "oops") [] 0
      ⟨some "chat", some [⟨"user", "hello"⟩], some false, none, none⟩
      (by decide) rfl rfl).1 "oops" rfl).2⟩

/-! ## C6 — gateway defaults and the dispatcher's max_tokens (corrected) -/

/-- C6 counterexample: a request carrying `max_tokens = 3000` reaches
the gateway with `max_tokens = 3000` — the dispatcher applies no cap at
2000, it only substitutes 2000 when the field is absent. -/
theorem max_tokens_uncapped_cx :
    ((processChat (fun _ => .exn "down") [] 0
        ⟨some "chat", some [⟨"user", "hello"⟩], some false, none, some 3000⟩).calls.map
      (fun p => p.max_tokens)) = [.jnum "3000"] ∧ (2000 : Int) < 3000 :=
  ⟨rfl, by decide⟩

/-- C6 (amended): with no keyword arguments (e.g. the warm-up call) the
gateway params default to `temperature = 0.9`, `max_tokens = 1500`; on a
chat request the dispatcher substitutes `2000` for an absent
`max_tokens` and passes a present value through unchanged, without any
upper cap. -/
theorem gateway_defaults_and_dispatch_max_tokens (remote : GwParams → RemoteOutcome)
    (cache : Cache) (now : Nat) (messages : List Msg) (sf : Bool) (req : Req)
    (hm : req.messages.getD [] ≠ []) (hs : req.stream.getD false = false)
    (hmiss : cacheLookup cache now
      (getCacheKey (req.messages.getD []) (chatKwargs req)) = none) :
    ((mkGwParams messages sf []).temperature = .jnum "0.9" ∧
     (mkGwParams messages sf []).max_tokens = .jnum "1500") ∧
    (processChat remote cache now req).calls
      = [mkGwParams (req.messages.getD []) false (chatKwargs req)] ∧
    (req.max_tokens = none →
      (mkGwParams (req.messages.getD []) false (chatKwargs req)).max_tokens
        = .jnum "2000") ∧
    (∀ m, req.max_tokens = some m →
      (mkGwParams (req.messages.getD []) false (chatKwargs req)).max_tokens
        = .jnum (intLit m)) := by
  refine ⟨⟨rfl, rfl⟩, ?_, fun h => ?_, fun m hm2 => ?_⟩
  · rcases hdr : directRequestText
        (remote (mkGwParams (req.messages.getD []) false (chatKwargs req))) with _ | r
    · rw [processChat_miss_none remote cache now req hm hs hmiss hdr]
    · rw [processChat_miss_some remote cache now req r hm hs hmiss hdr]
  · have hk : chatKwargs req
        = [("temperature", req.temperature.getD (.jnum "0.9")),
           ("max_tokens", .jnum "2000")] := by
      unfold chatKwargs
      rw [h]
      rfl
    rw [hk]
    rfl
  · have hk : chatKwargs req
        = [("temperature", req.temperature.getD (.jnum "0.9")),
           ("max_tokens", .jnum (intLit m))] := by
      unfold chatKwargs
      rw [hm2]
      rfl
    rw [hk]
    rfl

/-- Witness for `gateway_defaults_and_dispatch_max_tokens`. -/
theorem gateway_defaults_and_dispatch_max_tokens_witness :
    (mkGwParams [⟨"user", "x"⟩] false []).temperature = .jnum "0.9" ∧
    (mkGwParams [⟨"user", "x"⟩] false []).max_tokens = .jnum "1500" ∧
    (mkGwParams ((⟨some "chat", some [⟨"user", "hello"⟩], some false, none, none⟩ :
        Req).messages.getD []) false
      (chatKwargs ⟨some "chat", some [⟨"user", "hello"⟩], some false, none, none⟩)).max_tokens
      = .jnum "2000" :=
  ⟨(gateway_defaults_and_dispatch_max_tokens (fun _ => .exn "down") [] 0 [⟨"user", "x"⟩]
      false ⟨some "chat", some [⟨"user", "hello"⟩], some false, none, none⟩
      (by decide) rfl rfl).1.1,
   (gateway_defaults_and_dispatch_max_tokens (fun _ => .exn "down") [] 0 [⟨"user", "x"⟩]
      false ⟨some "chat", some [⟨"user", "hello"⟩], some false, none, none⟩
      (by decide) rfl rfl).1.2,
   (gateway_defaults_and_dispatch_max_tokens (fun _ => .exn "down") [] 0 [⟨"user", "x"⟩]
      false ⟨some "chat", some [⟨"user", "hello"⟩], some false, none, none⟩
      (by decide) rfl rfl).2.2.1 rfl⟩

/-! ## C8 — wire codec framing -/

/-- `isPre p l` holds exactly when `l` starts with `p`. -/
lemma isPre_iff (p : List Char) : ∀ l, isPre p l = true ↔ ∃ t, l = p ++ t := by
  induction p with
  | nil => intro l; simp [isPre]
  | cons a as ih =>
      intro l
      cases l with
      | nil => simp [isPre]
      | cons b bs =>
          simp only [isPre, Bool.and_eq_true, beq_iff_eq, ih, List.cons_append,
            List.cons.injEq]
          constructor
          · rintro ⟨rfl, t, rfl⟩
            exact ⟨t, rfl, rfl⟩
          · rintro ⟨t, rfl, rfl⟩
            exact ⟨rfl, t, rfl⟩

/-- A pattern matching at any position inside `s` makes `hasOccur` true. -/
lemma hasOccur_of_isPre_drop (p : List Char) (hp : p ≠ []) :
    ∀ (s : List Char) (i : Nat), isPre p (s.drop i) = true → hasOccur p s = true := by
  intro s
  induction s with
  | nil =>
      intro i h
      rw [List.drop_nil] at h
      cases p with
      | nil => exact absurd rfl hp
      | cons a as => simp [isPre] at h
  | cons c cs ih =>
      intro i h
      cases i with
      | zero =>
          rw [List.drop_zero] at h
          simp [hasOccur, h]
      | succ j =>
          have := ih j (by simpa using h)
          simp [hasOccur, this]

/-- When the sentinel's first occurrence in `s ++ sentinel` is the
appended terminator itself, stripping recovers `s` exactly. -/
lemma strip_append_sent : ∀ (s : List Char),
    (∀ i < s.length, isPre sentChars ((s ++ sentChars).drop i) = false) →
    stripAux 0 (s ++ sentChars) = s := by
  intro s
  induction s with
  | nil => intro _; decide
  | cons c cs ih =>
      intro H
      have H0 : isPre sentChars (c :: (cs ++ sentChars)) = false := by
        have h := H 0 (by simp)
        simpa using h
      rw [List.cons_append]
      simp only [stripAux, H0, Bool.false_eq_true, if_false]
      rw [ih fun i hi => by
        have h := H (i + 1) (by simp only [List.length_cons]; omega)
        simpa using h]

/-- If `s` contains no sentinel occurrence and does not end in a
sentinel character, then no occurrence in `s ++ sentinel` starts before
the appended terminator. -/
lemma no_early_occurrence (s : List Char)
    (hocc : hasOccur sentChars s = false)
    (hlast : ∀ c, s.getLast? = some c → ¬(c = '_' ∨ c = 'E' ∨ c = 'N' ∨ c = 'D')) :
    ∀ i < s.length, isPre sentChars ((s ++ sentChars).drop i) = false := by
  intro i hi
  by_contra hp
  have hp' : isPre sentChars ((s ++ sentChars).drop i) = true := by
    cases h : isPre sentChars ((s ++ sentChars).drop i)
    · exact absurd h hp
    · rfl
  rw [List.drop_append_eq_append_drop, show i - s.length = 0 by omega,
    List.drop_zero] at hp'
  obtain ⟨t, ht⟩ := (isPre_iff sentChars _).mp hp'
  have hlen2 : 0 < (s.drop i).length := by
    rw [List.length_drop]
    omega
  by_cases hlen : 7 ≤ (s.drop i).length
  · have h7 : (s.drop i).take 7 = sentChars := by
      have hcong := congrArg (List.take 7) ht
      rw [List.take_append_eq_append_take, List.take_append_eq_append_take,
        show 7 - (s.drop i).length = 0 by omega, List.take_zero, List.append_nil,
        show List.take 7 sentChars = sentChars from rfl,
        show (7 : Nat) - sentChars.length = 0 from rfl, List.take_zero,
        List.append_nil] at hcong
      exact hcong
    have hpre : isPre sentChars (s.drop i) = true := by
      apply (isPre_iff sentChars _).mpr
      refine ⟨(s.drop i).drop 7, ?_⟩
      conv_lhs => rw [← List.take_append_drop 7 (s.drop i)]
      rw [h7]
    have := hasOccur_of_isPre_drop sentChars (by decide) s i hpre
    rw [this] at hocc
    exact Bool.noConfusion hocc
  · push_neg at hlen
    have hne : s.drop i ≠ [] := List.length_pos.mp hlen2
    have hu : s.drop i = sentChars.take (s.drop i).length := by
      have hcong := congrArg (List.take (s.drop i).length) ht
      rw [List.take_append_eq_append_take, List.take_append_eq_append_take,
        Nat.sub_self, List.take_zero, List.append_nil, List.take_length,
        show (s.drop i).length - sentChars.length = 0 by
          rw [show sentChars.length = 7 from rfl]; omega,
        List.take_zero, List.append_nil] at hcong
      exact hcong
    have hglast : s.getLast? = (s.drop i).getLast? := by
      conv_lhs => rw [← List.take_append_drop i s]
      rw [List.getLast?_append]
      obtain ⟨c0, hc0⟩ : ∃ c0, (s.drop i).getLast? = some c0 := by
        cases h' : (s.drop i).getLast? with
        | none => exact absurd (List.getLast?_eq_none_iff.mp h') hne
        | some c0 => exact ⟨c0, rfl⟩
      rw [hc0]
      rfl
    obtain ⟨n, hn, hn1, hn7⟩ : ∃ n, (s.drop i).length = n ∧ 1 ≤ n ∧ n < 7 :=
      ⟨_, rfl, hlen2, hlen⟩
    rw [hn] at hu
    interval_cases n
    · exact hlast '_' (by rw [hglast, hu]; rfl) (by decide)
    · exact hlast '_' (by rw [hglast, hu]; rfl) (by decide)
    · exact hlast 'E' (by rw [hglast, hu]; rfl) (by decide)
    · exact hlast 'N' (by rw [hglast, hu]; rfl) (by decide)
    · exact hlast 'D' (by rw [hglast, hu]; rfl) (by decide)
    · exact hlast '_' (by rw [hglast, hu]; rfl) (by decide)

/-- The serialized form of a well-formed JSON value never ends in a
sentinel character: objects, arrays and strings end in `}`/`]`/`"`, the
keyword literals end in `l`/`e`, and a valid numeric literal ends in a
digit. -/
lemma dumpsW_lastSafe (v : JVal) (hwf : jwf v = true) :
    ∀ c, (dumpsW v).getLast? = some c → ¬(c = '_' ∨ c = 'E' ∨ c = 'N' ∨ c = 'D') := by
  cases v with
  | jnull =>
      intro c hc
      rw [show dumpsW .jnull = ['n', 'u', 'l', 'l'] from by simp [dumpsW],
        show (['n', 'u', 'l', 'l'] : List Char).getLast? = some 'l' from rfl] at hc
      injection hc with h
      subst h
      decide
  | jbool b =>
      cases b with
      | true =>
          intro c hc
          rw [show dumpsW (.jbool true) = ['t', 'r', 'u', 'e'] from by simp [dumpsW],
            show (['t', 'r', 'u', 'e'] : List Char).getLast? = some 'e' from rfl] at hc
          injection hc with h
          subst h
          decide
      | false =>
          intro c hc
          rw [show dumpsW (.jbool false) = ['f', 'a', 'l', 's', 'e'] from by simp [dumpsW],
            show (['f', 'a', 'l', 's', 'e'] : List Char).getLast? = some 'e' from rfl] at hc
          injection hc with h
          subst h
          decide
  | jnum lit =>
      intro c hc
      have hnum : numOk lit = true := by simpa [jwf] using hwf
      rw [numOk, Bool.and_eq_true] at hnum
      obtain ⟨h1, _⟩ := hnum
      rw [show dumpsW (.jnum lit) = lit.data from by simp [dumpsW]] at hc
      rw [hc] at h1
      have h2 : c.isDigit = true := h1
      rintro (rfl | rfl | rfl | rfl) <;> exact absurd h2 (by decide)
  | jstr s =>
      intro c hc
      rw [show dumpsW (.jstr s) = ('"' :: escJ s.data) ++ ['"'] from by simp [dumpsW],
        List.getLast?_concat] at hc
      injection hc with h
      subst h
      decide
  | jarr es =>
      intro c hc
      rw [show dumpsW (.jarr es) = ('[' :: dumpsWList es) ++ [']'] from by simp [dumpsW],
        List.getLast?_concat] at hc
      injection hc with h
      subst h
      decide
  | jobj fs =>
      intro c hc
      rw [show dumpsW (.jobj fs) = ('{' :: dumpsWObj fs) ++ ['}'] from by simp [dumpsW],
        List.getLast?_concat] at hc
      injection hc with h
      subst h
      decide

/-- C8: encoding a well-formed JSON value whose serialized text contains
no sentinel occurrence and then decoding recovers the text exactly;
and because decoding strips the sentinel from anywhere in the buffer, a
string value containing the literal sentinel is corrupted — the decoded
text is the serialization of the string with the sentinel deleted. -/
theorem wire_roundtrip_and_sentinel_corruption :
    (∀ v : JVal, jwf v = true → hasOccur sentChars (dumpsW v) = false →
      stripSent (frame (dumpsW v)) = dumpsW v) ∧
    (stripSent (frame (dumpsW (.jstr "a__END__b"))) = dumpsW (.jstr "ab") ∧
     dumpsW (.jstr "a__END__b") ≠ dumpsW (.jstr "ab")) := by
  refine ⟨fun v hwf hocc => ?_, ?_, ?_⟩
  · exact strip_append_sent (dumpsW v)
      (no_early_occurrence (dumpsW v) hocc (dumpsW_lastSafe v hwf))
  · rw [show dumpsW (.jstr "a__END__b") = '"' :: (escJ "a__END__b".data ++ ['"'])
        from by simp [dumpsW],
      show dumpsW (.jstr "ab") = '"' :: (escJ "ab".data ++ ['"']) from by simp [dumpsW]]
    decide
  · rw [show dumpsW (.jstr "a__END__b") = '"' :: (escJ "a__END__b".data ++ ['"'])
        from by simp [dumpsW],
      show dumpsW (.jstr "ab") = '"' :: (escJ "ab".data ++ ['"']) from by simp [dumpsW]]
    decide

/-- Witness for `wire_roundtrip_and_sentinel_corruption` on the value
`"hi"`. -/
theorem wire_roundtrip_and_sentinel_corruption_witness :
    jwf (.jstr "hi") = true ∧
    hasOccur sentChars (dumpsW (.jstr "hi")) = false ∧
    stripSent (frame (dumpsW (.jstr "hi"))) = dumpsW (.jstr "hi") := by
  have hw : jwf (.jstr "hi") = true := by simp [jwf]
  have ho : hasOccur sentChars (dumpsW (.jstr "hi")) = false := by
    rw [show dumpsW (.jstr "hi") = '"' :: (escJ "hi".data ++ ['"']) from by simp [dumpsW]]
    decide
  exact ⟨hw, ho, wire_roundtrip_and_sentinel_corruption.1 _ hw ho⟩

/-! ## C5 — cache-key fingerprint is field-order independent -/

/-- The rendered pairs are just the mapped entries. -/
lemma dumpsSPairs_eq_map (l : List (String × JVal)) :
    dumpsSPairs l = l.map fun f => (f.1, dumpsS f.2) := by
  induction l with
  | nil => rfl
  | cons f rest ih =>
      obtain ⟨k, v⟩ := f
      simp only [dumpsSPairs, List.map_cons, ih]

/-- Association-list lookup is invariant under permutation when the keys
are distinct. -/
lemma lookup_eq_of_perm {β : Type} {l1 l2 : List (String × β)} (h : l1.Perm l2) :
    (l1.map Prod.fst).Nodup → ∀ k, l1.lookup k = l2.lookup k := by
  induction h with
  | nil => exact fun _ _ => rfl
  | cons x h ih =>
      intro hnd k
      obtain ⟨x1, x2⟩ := x
      simp only [List.map_cons, List.nodup_cons] at hnd
      simp only [List.lookup]
      cases hxk : (k == x1) with
      | true => rfl
      | false => exact ih hnd.2 k
  | swap x y l =>
      intro hnd k
      obtain ⟨x1, x2⟩ := x
      obtain ⟨y1, y2⟩ := y
      simp only [List.map_cons, List.nodup_cons, List.mem_cons] at hnd
      have hyx : y1 ≠ x1 := fun hEq => hnd.1 (Or.inl hEq)
      simp only [List.lookup]
      cases hky : (k == y1) with
      | true =>
          cases hkx : (k == x1) with
          | true =>
              exact absurd ((beq_iff_eq.mp hky).symm.trans (beq_iff_eq.mp hkx)) hyx
          | false => rfl
      | false =>
          cases hkx : (k == x1) with
          | true => rfl
          | false => rfl
  | trans h1 h2 ih1 ih2 =>
      intro hnd k
      exact (ih1 hnd k).trans (ih2 ((h1.map Prod.fst).nodup hnd) k)

/-- Sorting two permuted key lists gives the same list (string order is
antisymmetric). -/
lemma mergeSort_eq_of_perm {l1 l2 : List String} (h : l1.Perm l2) :
    l1.mergeSort strLe = l2.mergeSort strLe := by
  have hs1 : List.Sorted (· ≤ ·) (l1.mergeSort strLe) := by
    rw [show strLe = fun a b : String => decide (a ≤ b) from rfl]
    exact List.sorted_mergeSort' l1
  have hs2 : List.Sorted (· ≤ ·) (l2.mergeSort strLe) := by
    rw [show strLe = fun a b : String => decide (a ≤ b) from rfl]
    exact List.sorted_mergeSort' l2
  exact List.eq_of_perm_of_sorted
    ((List.mergeSort_perm l1 strLe).trans (h.trans (List.mergeSort_perm l2 strLe).symm))
    hs1 hs2

/-- C5: the cache-key fingerprint is deterministic (it is a function of
the canonicalized request) and independent of the order in which the
keyword fields were supplied: permuting distinct-keyed kwargs yields the
same key. -/
theorem cachekey_field_order_indep (messages : List Msg) (k1 k2 : List (String × JVal))
    (hperm : k1.Perm k2)
    (hnd : ("messages" :: k1.map Prod.fst).Nodup) :
    getCacheKey messages k1 = getCacheKey messages k2 := by
  unfold getCacheKey
  congr 1
  set e : String × JVal := ("messages", .jarr (messages.map msgJVal)) with he
  have hp : (e :: k1).Perm (e :: k2) := hperm.cons e
  have hpairs : (dumpsSPairs (e :: k1)).Perm (dumpsSPairs (e :: k2)) := by
    rw [dumpsSPairs_eq_map, dumpsSPairs_eq_map]
    exact hp.map _
  have hknd : ((dumpsSPairs (e :: k1)).map Prod.fst).Nodup := by
    rw [dumpsSPairs_eq_map]
    have hmm : ((e :: k1).map fun f => (f.1, dumpsS f.2)).map Prod.fst
        = (e :: k1).map Prod.fst := by
      rw [List.map_map]
      exact List.map_congr_left fun a _ => rfl
    rw [hmm]
    simpa [he] using hnd
  have hsort : ((dumpsSPairs (e :: k1)).map Prod.fst).mergeSort strLe
      = ((dumpsSPairs (e :: k2)).map Prod.fst).mergeSort strLe :=
    mergeSort_eq_of_perm (hpairs.map _)
  have hlook : ∀ k, (dumpsSPairs (e :: k1)).lookup k = (dumpsSPairs (e :: k2)).lookup k :=
    lookup_eq_of_perm hpairs hknd
  simp only [dumpsS]
  rw [hsort]
  congr 1
  congr 1
  exact congrArg joinChunks (List.map_congr_left fun k _ => by rw [hlook k])

/-- Witness for `cachekey_field_order_indep`: the two kwargs orders the
dispatcher could conceivably build produce the same fingerprint. -/
theorem cachekey_field_order_indep_witness :
    ([(("temperature" : String), JVal.jnum "0.9"), ("max_tokens", JVal.jnum "2000")].Perm
      [("max_tokens", JVal.jnum "2000"), ("temperature", JVal.jnum "0.9")]) ∧
    getCacheKey [⟨"user", "hello"⟩]
        [("temperature", .jnum "0.9"), ("max_tokens", .jnum "2000")]
      = getCacheKey [⟨"user", "hello"⟩]
        [("max_tokens", .jnum "2000"), ("temperature", .jnum "0.9")] :=
  ⟨List.Perm.swap ("max_tokens", JVal.jnum "2000") ("temperature", JVal.jnum "0.9") [],
   cachekey_field_order_indep [⟨"user", "hello"⟩] _ _
     (List.Perm.swap ("max_tokens", JVal.jnum "2000") ("temperature", JVal.jnum "0.9") [])
     (by decide)⟩

/-- Witness for `action_defaults_to_chat`: a request without an action
is dispatched as chat; an unknown action is rejected. -/
theorem action_defaults_to_chat_witness :
    processRequest (fun _ => .exn "down") [] 0 ⟨none, none, none, none, none⟩
      = processChat (fun _ => .exn "down") [] 0 ⟨none, none, none, none, none⟩ ∧
    processRequest (fun _ => .exn "down") [] 0 ⟨some "bogus", none, none, none, none⟩
      = ⟨.errorR ("未知操作: " ++ "bogus"), [], []⟩ :=
  ⟨(action_defaults_to_chat (fun _ => .exn "down") [] 0
      ⟨none, none, none, none, none⟩).1 rfl,
   (action_defaults_to_chat (fun _ => .exn "down") [] 0
      ⟨some "bogus", none, none, none, none⟩).2.1 "bogus" rfl
      (by decide) (by decide) (by decide)⟩
